import Mathlib

/-!
# Verification of the dispatch call-volume forecasting core

A shallow embedding of the forecasting pipeline in `app/app.py`.

Modelling conventions:

* Timestamps are naive date-times at hour granularity, represented as the
  number of hours since an epoch falling on a Monday at midnight.  Python's
  `start_time + timedelta(hours=h)` becomes `t + h`, `ts.hour` becomes
  `t % 24`, and `ts.weekday()` (0 = Monday .. 6 = Sunday) becomes
  `(t / 24) % 7`.
* The Python dict `feature_data` is an association list with
  insert-or-overwrite semantics (`dinsert`) and first-match lookup
  (`dlookup`).
* pandas column selection `features_df[feature_columns]` is `selectColumns`:
  it returns the requested columns in the requested order and fails (pandas
  raises `KeyError`) when a requested column is absent from the frame.
* The external predictor is an arbitrary function from a feature row to a
  list of rational prediction values (`prediction[0]` in the source).
  Exceptions are modelled with `Except`.
-/

namespace Dispatch

instance {ε α : Type} [DecidableEq ε] [DecidableEq α] :
    DecidableEq (Except ε α) := fun a b =>
  match a, b with
  | .ok x, .ok y =>
    if h : x = y then isTrue (by rw [h])
    else isFalse (fun hc => h (Except.ok.inj hc))
  | .error x, .error y =>
    if h : x = y then isTrue (by rw [h])
    else isFalse (fun hc => h (Except.error.inj hc))
  | .ok _, .error _ => isFalse (fun hc => Except.noConfusion hc)
  | .error _, .ok _ => isFalse (fun hc => Except.noConfusion hc)

/-- `as` is a prefix of `bs` (character-by-character comparison). -/
def isPre : List Char → List Char → Bool
  | [], _ => true
  | _ :: _, [] => false
  | a :: as, b :: bs => a = b && isPre as bs

/-- Python `col.startswith(pre)`: `pre` is a prefix of `col`'s character
sequence. -/
def strStarts (col pre : String) : Bool := isPre pre.data col.data

/-- Python dict assignment `d[k] = v`: overwrite the existing entry in
place, otherwise append a new entry at the end. -/
def dinsert (k : String) (v : Int) : List (String × Int) → List (String × Int)
  | [] => [(k, v)]
  | (k', v') :: rest =>
    if k' = k then (k, v) :: rest else (k', v') :: dinsert k v rest

/-- Python dict lookup `d[k]` / `k in d`: first matching entry. -/
def dlookup (k : String) : List (String × Int) → Option Int
  | [] => none
  | (k', v') :: rest => if k' = k then some v' else dlookup k rest

/-- `ts.hour` for an hour-granularity timestamp. -/
def hourOf (t : Nat) : Int := (t % 24 : Nat)

/-- `ts.weekday()`: 0 = Monday .. 6 = Sunday (the epoch is a Monday). -/
def weekdayOf (t : Nat) : Int := ((t / 24) % 7 : Nat)

/-- Line 88: `[col for col in feature_columns if
col.startswith('organization_id_')]`. -/
def orgIdCols (featureColumns : List String) : List String :=
  featureColumns.filter (fun col => strStarts col "organization_id_")

/-- Line 100: `f'organization_id_{organization_id}'`. -/
def orgCol (organizationId : Int) : String :=
  "organization_id_" ++ toString organizationId

/-- Lines 91-95: the initial `feature_data` dict. -/
def baseData (ts : Nat) (census : Int) : List (String × Int) :=
  [("rooms_with_patients", census),
   ("hour_of_day", hourOf ts),
   ("day_of_week", weekdayOf ts)]

/-- Lines 91-98: the `feature_data` dict after the base features and the
zero-initialisation of every organization indicator column of the schema. -/
def withOrgData (ts : Nat) (census : Int) (featureColumns : List String) :
    List (String × Int) :=
  (orgIdCols featureColumns).foldl (fun d c => dinsert c 0 d)
    (baseData ts census)

/-- Lines 91-102: the fully populated `feature_data` dict — base features,
every organization indicator column of the schema set to 0, then the
column named after the given organization id set to 1 when that column is
a key of the dict (`if current_org_col in feature_data`). -/
def featureData (ts : Nat) (census : Int) (organizationId : Int)
    (featureColumns : List String) : List (String × Int) :=
  match dlookup (orgCol organizationId) (withOrgData ts census featureColumns) with
  | some _ =>
    dinsert (orgCol organizationId) 1 (withOrgData ts census featureColumns)
  | none => withOrgData ts census featureColumns

/-- Line 106: `features_df[feature_columns]` — emit the requested columns
in the requested order; a missing column raises `KeyError` (the error
value carries the first missing name). -/
def selectColumns (d : List (String × Int)) :
    List String → Except String (List (String × Int))
  | [] => .ok []
  | c :: cs =>
    match dlookup c d with
    | none => .error c
    | some v =>
      match selectColumns d cs with
      | .error e => .error e
      | .ok rest => .ok ((c, v) :: rest)

/-- One feature-vector build for one timestamp (lines 91-106): populate
`feature_data`, then align it to the schema's column order. -/
def build (ts : Nat) (census : Int) (organizationId : Int)
    (featureColumns : List String) : Except String (List (String × Int)) :=
  selectColumns (featureData ts census organizationId featureColumns)
    featureColumns

/-- Line 85: `[start_time + timedelta(hours=h) for h in range(duration)]`. -/
def timestampsOf (start duration : Nat) : List Nat :=
  (List.range duration).map (fun h => start + h)

/-- Line 113: the hard-coded category column list. -/
def categories : List String :=
  ["Clinical", "Mobility", "Basic Need", "Housekeeping", "Other"]

/-- Line 110: `[max(0, val) for val in prediction[0]]`. -/
def clampRow (row : List ℚ) : List ℚ := row.map (fun v => max 0 v)

/-- Lines 90-111: one build and one predictor call per timestamp, each raw
prediction row clamped at 0; the first exception aborts the loop. -/
def predictionLoop (census organizationId : Int)
    (featureColumns : List String)
    (predict : List (String × Int) → List ℚ) :
    List Nat → Except String (List (Nat × List ℚ))
  | [] => .ok []
  | ts :: rest =>
    match build ts census organizationId featureColumns with
    | .error e => .error e
    | .ok fv =>
      match predictionLoop census organizationId featureColumns predict rest with
      | .error e => .error e
      | .ok tail => .ok ((ts, clampRow (predict fv)) :: tail)

/-- Lines 84-114, `generate_single_unit_forecast`: run the prediction loop
over the hourly timestamps, then build the result table with the fixed
category columns.  The `pd.DataFrame(predictions, columns=categories)`
constructor requires every prediction row to supply one value per
category, else it raises `ValueError`. -/
def generate_single_unit_forecast (start duration : Nat)
    (census organizationId : Int) (featureColumns : List String)
    (predict : List (String × Int) → List ℚ) :
    Except String (List String × List (Nat × List ℚ)) :=
  match predictionLoop census organizationId featureColumns predict
      (timestampsOf start duration) with
  | .error e => .error e
  | .ok rows =>
    if rows.all (fun r => r.2.length = categories.length) then
      .ok (categories, rows)
    else
      .error "ValueError"

/-- Lines 159-162, the forecast request loop: for each unit, look the unit
up in the unit-to-organization map; only when the lookup yields a truthy
value (present and nonzero — Python `if org_id:`) is a forecast generated
for the unit, otherwise the unit is passed over. -/
def forecastRequestLoop (start duration : Nat)
    (unitToOrgId : String → Option Int) (featureColumns : List String)
    (predict : List (String × Int) → List ℚ) :
    List (String × Int) →
      Except String (List (String × (List String × List (Nat × List ℚ))))
  | [] => .ok []
  | (unitName, censusVal) :: rest =>
    match unitToOrgId unitName with
    | none => forecastRequestLoop start duration unitToOrgId featureColumns
        predict rest
    | some orgId =>
      if orgId = 0 then
        forecastRequestLoop start duration unitToOrgId featureColumns
          predict rest
      else
        match generate_single_unit_forecast start duration censusVal orgId
            featureColumns predict with
        | .error e => .error e
        | .ok table =>
          match forecastRequestLoop start duration unitToOrgId
              featureColumns predict rest with
          | .error e => .error e
          | .ok tail => .ok ((unitName, table) :: tail)

/-- Line 188: `forecast_df.sum(axis=1)` for one row of the aggregated
table. -/
def rowTotal (r : Nat × List ℚ) : ℚ := r.2.sum

/-- Line 188, `idxmax` on the per-hour totals: the row whose total is
maximal, keeping the FIRST row on ties (pandas `idxmax` returns the first
index label attaining the maximum). -/
def bestRow : List (Nat × List ℚ) → Option (Nat × List ℚ)
  | [] => none
  | r :: rest =>
    match bestRow rest with
    | none => some r
    | some b => if rowTotal r < rowTotal b then some b else some r

/-- Line 188: `peak_hour = forecast_df.sum(axis=1).idxmax()`. -/
def peakHour (rows : List (Nat × List ℚ)) : Option Nat :=
  (bestRow rows).map Prod.fst

/-- The column names a population rule of the builder ever writes: the
three base features plus any organization indicator column. -/
def populatedCol (c : String) : Bool :=
  c = "rooms_with_patients" || c = "hour_of_day" || c = "day_of_week" ||
    strStarts c "organization_id_"

/-! ## Dictionary and column-selection lemmas -/

theorem dlookup_dinsert (k c : String) (v : Int) (d : List (String × Int)) :
    dlookup c (dinsert k v d) = if k = c then some v else dlookup c d := by
  induction d with
  | nil =>
    by_cases hc : k = c <;> simp [dinsert, dlookup, hc]
  | cons kv rest ih =>
    obtain ⟨k', v'⟩ := kv
    by_cases hk : k' = k
    · subst hk
      by_cases hc : k' = c <;> simp [dinsert, dlookup, hc]
    · by_cases hc : k' = c
      · subst hc
        have hkc : k ≠ k' := fun h => hk h.symm
        simp [dinsert, dlookup, hk, hkc]
      · simp [dinsert, dlookup, hk, hc, ih]

theorem dlookup_foldl_zero (cs : List String) (d : List (String × Int))
    (c : String) :
    dlookup c (cs.foldl (fun d' c' => dinsert c' 0 d') d) =
      if c ∈ cs then some 0 else dlookup c d := by
  induction cs generalizing d with
  | nil => simp
  | cons c' cs ih =>
    simp only [List.foldl_cons]
    rw [ih, dlookup_dinsert]
    by_cases h1 : c ∈ cs
    · simp [h1]
    · by_cases h2 : c' = c
      · simp [h1, h2]
      · have h3 : ¬c = c' := fun h => h2 h.symm
        simp [h1, h2, h3]

theorem selectColumns_map_fst (d : List (String × Int)) :
    ∀ (cols : List String) (row : List (String × Int)),
      selectColumns d cols = .ok row → row.map Prod.fst = cols := by
  intro cols
  induction cols with
  | nil =>
    intro row h
    simp only [selectColumns] at h
    cases h
    rfl
  | cons c cs ih =>
    intro row h
    simp only [selectColumns] at h
    cases hl : dlookup c d with
    | none => rw [hl] at h; cases h
    | some v =>
      rw [hl] at h
      cases hs : selectColumns d cs with
      | error e => rw [hs] at h; cases h
      | ok rest =>
        rw [hs] at h
        cases h
        simp [ih rest hs]

theorem selectColumns_mem (d : List (String × Int)) :
    ∀ (cols : List String) (row : List (String × Int)),
      selectColumns d cols = .ok row →
        ∀ c v, (c, v) ∈ row → dlookup c d = some v := by
  intro cols
  induction cols with
  | nil =>
    intro row h
    simp only [selectColumns] at h
    cases h
    intro c v hm
    cases hm
  | cons c' cs ih =>
    intro row h
    simp only [selectColumns] at h
    cases hl : dlookup c' d with
    | none => rw [hl] at h; cases h
    | some v' =>
      rw [hl] at h
      cases hs : selectColumns d cs with
      | error e => rw [hs] at h; cases h
      | ok rest =>
        rw [hs] at h
        cases h
        intro c v hm
        rcases List.mem_cons.mp hm with h1 | h1
        · cases h1
          exact hl
        · exact ih rest hs c v h1

theorem selectColumns_mem_of (d : List (String × Int)) :
    ∀ (cols : List String) (row : List (String × Int)),
      selectColumns d cols = .ok row →
        ∀ c v, c ∈ cols → dlookup c d = some v → (c, v) ∈ row := by
  intro cols
  induction cols with
  | nil =>
    intro row _ c v hc
    cases hc
  | cons c' cs ih =>
    intro row h c v hc hv
    simp only [selectColumns] at h
    cases hl : dlookup c' d with
    | none => rw [hl] at h; cases h
    | some v' =>
      rw [hl] at h
      cases hs : selectColumns d cs with
      | error e => rw [hs] at h; cases h
      | ok rest =>
        rw [hs] at h
        cases h
        rcases List.mem_cons.mp hc with h1 | h1
        · subst h1
          rw [hl] at hv
          cases hv
          exact List.mem_cons_self _ _
        · exact List.mem_cons_of_mem _ (ih rest hs c v h1 hv)

theorem selectColumns_ok (d : List (String × Int)) :
    ∀ (cols : List String), (∀ c ∈ cols, (dlookup c d).isSome) →
      ∃ row, selectColumns d cols = .ok row := by
  intro cols
  induction cols with
  | nil => exact fun _ => ⟨[], rfl⟩
  | cons c cs ih =>
    intro hall
    obtain ⟨v, hv⟩ := Option.isSome_iff_exists.mp
      (hall c (List.mem_cons_self _ _))
    obtain ⟨rest, hrest⟩ := ih (fun c' hc' => hall c' (List.mem_cons_of_mem _ hc'))
    exact ⟨(c, v) :: rest, by simp only [selectColumns]; rw [hv, hrest]⟩

theorem selectColumns_error (d : List (String × Int)) :
    ∀ (cols : List String) (c : String), c ∈ cols → dlookup c d = none →
      ∃ e, selectColumns d cols = .error e := by
  intro cols
  induction cols with
  | nil =>
    intro c hc
    cases hc
  | cons c' cs ih =>
    intro c hc hnone
    by_cases h1 : dlookup c' d = none
    · exact ⟨c', by simp only [selectColumns]; rw [h1]⟩
    · obtain ⟨v', hv'⟩ := Option.ne_none_iff_exists'.mp h1
      have hcc : c ≠ c' := fun h => h1 (h ▸ hnone)
      have hcs : c ∈ cs := by
        rcases List.mem_cons.mp hc with h2 | h2
        · exact absurd h2 hcc
        · exact h2
      obtain ⟨e, he⟩ := ih c hcs hnone
      exact ⟨e, by simp only [selectColumns]; rw [hv', he]⟩

/-! ## String and feature-dict characterisation lemmas -/

theorem isPre_append (p q : List Char) : isPre p (p ++ q) = true := by
  induction p with
  | nil => rfl
  | cons a as ih => simp [isPre, ih]

theorem strStarts_orgCol (organizationId : Int) :
    strStarts (orgCol organizationId) "organization_id_" = true := by
  show isPre _ _ = true
  rw [orgCol, String.data_append]
  exact isPre_append _ _

theorem ne_orgCol_of_not_starts (c : String) (organizationId : Int)
    (h : strStarts c "organization_id_" = false) :
    c ≠ orgCol organizationId := by
  intro heq
  rw [heq, strStarts_orgCol] at h
  cases h

theorem mem_orgIdCols (c : String) (featureColumns : List String) :
    c ∈ orgIdCols featureColumns ↔
      c ∈ featureColumns ∧ strStarts c "organization_id_" = true := by
  simp [orgIdCols, List.mem_filter]

theorem dlookup_base_none (ts : Nat) (census : Int) (c : String)
    (h1 : c ≠ "rooms_with_patients") (h2 : c ≠ "hour_of_day")
    (h3 : c ≠ "day_of_week") :
    dlookup c (baseData ts census) = none := by
  have g1 : ¬("rooms_with_patients" = c) := fun h => h1 h.symm
  have g2 : ¬("hour_of_day" = c) := fun h => h2 h.symm
  have g3 : ¬("day_of_week" = c) := fun h => h3 h.symm
  simp [baseData, dlookup, g1, g2, g3]

theorem dlookup_base_orgCol (ts : Nat) (census organizationId : Int) :
    dlookup (orgCol organizationId) (baseData ts census) = none := by
  refine dlookup_base_none ts census _ ?_ ?_ ?_ <;>
    · intro heq
      have h := strStarts_orgCol organizationId
      rw [heq] at h
      exact absurd h (by decide)

theorem dlookup_withOrgData (ts : Nat) (census : Int)
    (featureColumns : List String) (c : String) :
    dlookup c (withOrgData ts census featureColumns) =
      if c ∈ orgIdCols featureColumns then some 0
      else dlookup c (baseData ts census) :=
  dlookup_foldl_zero _ _ _

/-- Full characterisation of the `feature_data` dict contents. -/
theorem dlookup_featureData (ts : Nat) (census organizationId : Int)
    (featureColumns : List String) (c : String) :
    dlookup c (featureData ts census organizationId featureColumns) =
      if orgCol organizationId ∈ orgIdCols featureColumns ∧
          c = orgCol organizationId then some 1
      else if c ∈ orgIdCols featureColumns then some 0
      else dlookup c (baseData ts census) := by
  have hcond : dlookup (orgCol organizationId)
      (withOrgData ts census featureColumns) =
        if orgCol organizationId ∈ orgIdCols featureColumns then some 0
        else none := by
    rw [dlookup_withOrgData, dlookup_base_orgCol]
  by_cases hmem : orgCol organizationId ∈ orgIdCols featureColumns
  · rw [if_pos hmem] at hcond
    simp only [featureData]
    rw [hcond]
    rw [dlookup_dinsert, dlookup_withOrgData]
    by_cases hc : c = orgCol organizationId
    · subst hc
      simp [hmem]
    · have hc' : ¬(orgCol organizationId = c) := fun h => hc h.symm
      simp [hc, hc']
  · rw [if_neg hmem] at hcond
    simp only [featureData]
    rw [hcond]
    rw [dlookup_withOrgData]
    have hfalse : ¬(orgCol organizationId ∈ orgIdCols featureColumns ∧
        c = orgCol organizationId) := fun h => hmem h.1
    rw [if_neg hfalse]

theorem dlookup_featureData_none (ts : Nat) (census organizationId : Int)
    (featureColumns : List String) (c : String)
    (hnp : populatedCol c = false) :
    dlookup c (featureData ts census organizationId featureColumns) =
      none := by
  simp only [populatedCol, Bool.or_eq_false_iff, decide_eq_false_iff_not]
    at hnp
  obtain ⟨⟨⟨h1, h2⟩, h3⟩, h4⟩ := hnp
  rw [dlookup_featureData]
  rw [if_neg, if_neg]
  · exact dlookup_base_none ts census c h1 h2 h3
  · intro hm
    have hst := ((mem_orgIdCols c featureColumns).mp hm).2
    simp [h4] at hst
  · intro hand
    exact (ne_orgCol_of_not_starts c organizationId h4) hand.2

theorem dlookup_base_hour (ts : Nat) (census : Int) :
    dlookup "hour_of_day" (baseData ts census) = some (hourOf ts) := by
  simp [baseData, dlookup]

theorem dlookup_base_day (ts : Nat) (census : Int) :
    dlookup "day_of_week" (baseData ts census) = some (weekdayOf ts) := by
  simp [baseData, dlookup]

theorem dlookup_featureData_isSome (ts : Nat) (census organizationId : Int)
    (featureColumns : List String) (c : String)
    (hc : c ∈ featureColumns) (hp : populatedCol c = true) :
    (dlookup c (featureData ts census organizationId featureColumns)).isSome := by
  rw [dlookup_featureData]
  by_cases h1 : orgCol organizationId ∈ orgIdCols featureColumns ∧
      c = orgCol organizationId
  · simp [h1]
  · rw [if_neg h1]
    by_cases h2 : c ∈ orgIdCols featureColumns
    · simp [h2]
    · rw [if_neg h2]
      simp only [populatedCol, Bool.or_eq_true, decide_eq_true_eq] at hp
      rcases hp with ((h | h) | h) | h
      · subst h
        simp [baseData, dlookup]
      · subst h
        simp [baseData, dlookup]
      · subst h
        simp [baseData, dlookup]
      · exact absurd ((mem_orgIdCols c featureColumns).mpr ⟨hc, h⟩) h2

theorem build_ok_of_populated (ts : Nat) (census organizationId : Int)
    (featureColumns : List String)
    (hall : ∀ c ∈ featureColumns, populatedCol c = true) :
    ∃ row, build ts census organizationId featureColumns = Except.ok row :=
  selectColumns_ok _ _ (fun c hc =>
    dlookup_featureData_isSome ts census organizationId featureColumns c hc
      (hall c hc))

/-! ## Claim theorems about the feature vector builder -/

/-- C1: for every non-empty schema and every input, whenever the builder
produces a feature vector (the vector handed to the predictor), that
vector's columns are exactly the schema's columns, in schema order, with
no extras and no omissions. -/
theorem build_columns_match_schema (featureColumns : List String) (ts : Nat)
    (census organizationId : Int) (row : List (String × Int))
    (hne : featureColumns ≠ [])
    (hok : build ts census organizationId featureColumns = Except.ok row) :
    row.map Prod.fst = featureColumns :=
  selectColumns_map_fst _ _ _ hok

theorem build_columns_match_schema_applied :
    ([("rooms_with_patients", (5 : Int)), ("hour_of_day", 0)].map Prod.fst
      = ["rooms_with_patients", "hour_of_day"]) :=
  build_columns_match_schema ["rooms_with_patients", "hour_of_day"] 0 5 3
    [("rooms_with_patients", 5), ("hour_of_day", 0)] (by decide) (by decide)

/-- C2 counterexample: a schema containing the column `"acuity_score"`,
which no population rule references, makes the builder raise `KeyError`
(the pandas column selection fails) instead of succeeding with a 0 value. -/
theorem build_default_fill_cx :
    build 0 0 0 ["rooms_with_patients", "acuity_score"] =
      Except.error "acuity_score" := by decide

/-- C2 amended: for every schema containing a column that no population
rule ever references, the builder fails with a missing-column `KeyError`
rather than defaulting that column to 0. -/
theorem build_unknown_column_errors (featureColumns : List String) (ts : Nat)
    (census organizationId : Int) (c : String)
    (hc : c ∈ featureColumns) (hnp : populatedCol c = false) :
    ∃ e, build ts census organizationId featureColumns = Except.error e :=
  selectColumns_error _ _ c hc
    (dlookup_featureData_none ts census organizationId featureColumns c hnp)

theorem build_unknown_column_errors_applied :
    ∃ e, build 0 0 0 ["rooms_with_patients", "acuity_score"] =
      Except.error e :=
  build_unknown_column_errors ["rooms_with_patients", "acuity_score"] 0 0 0
    "acuity_score" (by decide) (by decide)

/-- C3: for every schema made of recognised columns, the builder succeeds
for every organization id, and in the resulting vector every organization
indicator column carries 1 exactly when it is the column named after the
given organization id and 0 otherwise; an id matching no schema column
leaves all indicator columns at 0 and raises no error. -/
theorem build_one_hot (featureColumns : List String) (ts : Nat)
    (census organizationId : Int)
    (hall : ∀ c ∈ featureColumns, populatedCol c = true) :
    ∃ row, build ts census organizationId featureColumns = Except.ok row ∧
      ∀ c v, (c, v) ∈ row → strStarts c "organization_id_" = true →
        v = if c = orgCol organizationId then 1 else 0 := by
  obtain ⟨row, hok⟩ :=
    build_ok_of_populated ts census organizationId featureColumns hall
  refine ⟨row, hok, ?_⟩
  intro c v hm hs
  have hcin : c ∈ featureColumns := by
    rw [← selectColumns_map_fst _ _ _ hok]
    exact List.mem_map_of_mem Prod.fst hm
  have hlook := selectColumns_mem _ _ _ hok c v hm
  rw [dlookup_featureData] at hlook
  by_cases hc : c = orgCol organizationId
  · rw [if_pos ⟨hc ▸ (mem_orgIdCols c featureColumns).mpr ⟨hcin, hs⟩, hc⟩]
      at hlook
    rw [if_pos hc]
    exact (Option.some.inj hlook).symm
  · rw [if_neg (fun hand => hc hand.2),
      if_pos ((mem_orgIdCols c featureColumns).mpr ⟨hcin, hs⟩)] at hlook
    rw [if_neg hc]
    exact (Option.some.inj hlook).symm

theorem build_one_hot_applied :
    ∃ row,
      build 0 20 2 ["organization_id_1", "organization_id_2",
        "organization_id_3", "rooms_with_patients"] = Except.ok row ∧
      ∀ c v, (c, v) ∈ row → strStarts c "organization_id_" = true →
        v = if c = orgCol 2 then 1 else 0 :=
  build_one_hot ["organization_id_1", "organization_id_2",
    "organization_id_3", "rooms_with_patients"] 0 20 2 (by decide)

/-- C7 counterexample: with an empty schema the builder does not raise any
error — it succeeds with an empty feature row (there is no `SchemaError`
anywhere in the code). -/
theorem build_empty_schema_cx : build 0 0 0 [] = Except.ok [] := rfl

/-- C7 amended: for every input with an empty feature schema the builder
succeeds, returning an empty (zero-column) feature row which is then
passed on to the predictor; no `SchemaError` is raised. -/
theorem build_empty_schema_ok (ts : Nat) (census organizationId : Int) :
    build ts census organizationId [] = Except.ok [] := rfl

/-- C8 counterexample: the builder never derives a month feature — a
schema containing a `"month"` column makes the build fail with a missing
column instead of writing the timestamp's month into the output. -/
theorem build_month_cx :
    build 0 0 0 ["hour_of_day", "month"] = Except.error "month" := by decide

/-- C8 amended: whenever the builder succeeds, it has derived hour-of-day
(0-23, `ts.hour`) and day-of-week (0 = Monday .. 6 = Sunday,
`ts.weekday()`) from the timestamp and written each into the output
exactly when the corresponding column name exists in the schema, absent
columns being left unpopulated; month is NOT derived — a successful build
implies the schema had no `"month"` column (such a schema fails). -/
theorem build_time_features (featureColumns : List String) (ts : Nat)
    (census organizationId : Int) (row : List (String × Int))
    (hok : build ts census organizationId featureColumns = Except.ok row) :
    (("hour_of_day" ∈ featureColumns → ("hour_of_day", hourOf ts) ∈ row) ∧
      ("hour_of_day" ∉ featureColumns → ∀ v, ("hour_of_day", v) ∉ row)) ∧
    (("day_of_week" ∈ featureColumns → ("day_of_week", weekdayOf ts) ∈ row) ∧
      ("day_of_week" ∉ featureColumns → ∀ v, ("day_of_week", v) ∉ row)) ∧
    (0 ≤ hourOf ts ∧ hourOf ts < 24) ∧
    (0 ≤ weekdayOf ts ∧ weekdayOf ts < 7) ∧
    "month" ∉ featureColumns := by
  have hmap := selectColumns_map_fst _ _ _ hok
  have habs : ∀ c : String, c ∉ featureColumns → ∀ v, (c, v) ∉ row := by
    intro c hc v hm
    exact hc (by rw [← hmap]; exact List.mem_map_of_mem Prod.fst hm)
  have hbase : ∀ c : String, strStarts c "organization_id_" = false →
      dlookup c (featureData ts census organizationId featureColumns) =
        dlookup c (baseData ts census) := by
    intro c hcs
    rw [dlookup_featureData]
    rw [if_neg, if_neg]
    · intro hm
      have hst := ((mem_orgIdCols c featureColumns).mp hm).2
      simp [hcs] at hst
    · intro hand
      exact (ne_orgCol_of_not_starts c organizationId hcs) hand.2
  refine ⟨⟨?_, habs "hour_of_day"⟩, ⟨?_, habs "day_of_week"⟩, ?_, ?_, ?_⟩
  · intro hmem
    refine selectColumns_mem_of _ _ _ hok _ _ hmem ?_
    rw [hbase "hour_of_day" (by decide)]
    exact dlookup_base_hour ts census
  · intro hmem
    refine selectColumns_mem_of _ _ _ hok _ _ hmem ?_
    rw [hbase "day_of_week" (by decide)]
    exact dlookup_base_day ts census
  · constructor
    · exact Int.ofNat_nonneg _
    · simp only [hourOf]
      omega
  · constructor
    · exact Int.ofNat_nonneg _
    · simp only [weekdayOf]
      omega
  · intro hmem
    obtain ⟨⟨c, v⟩, hcv, hc⟩ := List.mem_map.mp (hmap ▸ hmem)
    have hc' : c = "month" := hc
    subst hc'
    have hlook := selectColumns_mem _ _ _ hok _ _ hcv
    rw [dlookup_featureData_none ts census organizationId featureColumns
      "month" (by decide)] at hlook
    cases hlook

theorem build_time_features_applied :
    (("hour_of_day" ∈ ["hour_of_day"] →
        ("hour_of_day", hourOf 30) ∈ [("hour_of_day", (6 : Int))]) ∧
      ("hour_of_day" ∉ ["hour_of_day"] →
        ∀ v, ("hour_of_day", v) ∉ [("hour_of_day", (6 : Int))])) ∧
    (("day_of_week" ∈ ["hour_of_day"] →
        ("day_of_week", weekdayOf 30) ∈ [("hour_of_day", (6 : Int))]) ∧
      ("day_of_week" ∉ ["hour_of_day"] →
        ∀ v, ("day_of_week", v) ∉ [("hour_of_day", (6 : Int))])) ∧
    (0 ≤ hourOf 30 ∧ hourOf 30 < 24) ∧
    (0 ≤ weekdayOf 30 ∧ weekdayOf 30 < 7) ∧
    "month" ∉ ["hour_of_day"] :=
  build_time_features ["hour_of_day"] 30 0 0 [("hour_of_day", 6)] (by decide)

/-! ## Claim theorems about the hourly generator -/

/-- C4: for every start timestamp and positive duration `d`, the generator
produces exactly `d` hourly timestamps `start, start+1, ..., start+(d-1)`,
consecutive, with no gaps and no duplicates; calendar rollover is
transparent because naive date-time arithmetic is plain hour arithmetic. -/
theorem timestamps_contiguous (start duration : Nat) (hd : 0 < duration) :
    (timestampsOf start duration).length = duration ∧
    (∀ i, i < duration → (timestampsOf start duration).getD i 0 = start + i) ∧
    (∀ i, i + 1 < duration →
      (timestampsOf start duration).getD (i + 1) 0 =
        (timestampsOf start duration).getD i 0 + 1) ∧
    (timestampsOf start duration).Nodup := by
  have hget : ∀ i, i < duration →
      (timestampsOf start duration).getD i 0 = start + i := by
    intro i hi
    simp [timestampsOf, List.getD_eq_getElem?_getD, List.getElem?_map,
      List.getElem?_range hi]
  refine ⟨by simp [timestampsOf], hget, ?_, ?_⟩
  · intro i hi
    rw [hget (i + 1) hi, hget i (by omega)]
    omega
  · exact List.Nodup.map (fun a b hab => by omega) (List.nodup_range duration)

theorem timestamps_contiguous_applied :
    (timestampsOf 23 3).length = 3 ∧
    (∀ i, i < 3 → (timestampsOf 23 3).getD i 0 = 23 + i) ∧
    (∀ i, i + 1 < 3 →
      (timestampsOf 23 3).getD (i + 1) 0 = (timestampsOf 23 3).getD i 0 + 1) ∧
    (timestampsOf 23 3).Nodup :=
  timestamps_contiguous 23 3 (by decide)

theorem predictionLoop_mem (census organizationId : Int)
    (featureColumns : List String) (predict : List (String × Int) → List ℚ) :
    ∀ (l : List Nat) (rows : List (Nat × List ℚ)),
      predictionLoop census organizationId featureColumns predict l =
          Except.ok rows →
        ∀ ts row, (ts, row) ∈ rows →
          ∃ fv, build ts census organizationId featureColumns =
              Except.ok fv ∧ row = clampRow (predict fv) := by
  intro l
  induction l with
  | nil =>
    intro rows h ts row hm
    simp only [predictionLoop] at h
    cases h
    cases hm
  | cons t rest ih =>
    intro rows h ts row hm
    simp only [predictionLoop] at h
    cases hb : build t census organizationId featureColumns with
    | error e => rw [hb] at h; cases h
    | ok fv =>
      rw [hb] at h
      cases hr : predictionLoop census organizationId featureColumns predict
          rest with
      | error e => rw [hr] at h; cases h
      | ok tail =>
        rw [hr] at h
        cases h
        rcases List.mem_cons.mp hm with h1 | h1
        · cases h1
          exact ⟨fv, hb, rfl⟩
        · exact ih tail hr ts row h1

/-- C5: whenever the generator succeeds, every value of every prediction
row it returns equals `max 0` of the predictor's raw output for the
feature vector built for that hour; in particular every returned value is
non-negative. -/
theorem generate_clamps_nonneg (start duration : Nat)
    (census organizationId : Int) (featureColumns : List String)
    (predict : List (String × Int) → List ℚ)
    (result : List String × List (Nat × List ℚ))
    (hok : generate_single_unit_forecast start duration census organizationId
      featureColumns predict = Except.ok result) :
    ∀ ts row, (ts, row) ∈ result.2 →
      (∃ fv, build ts census organizationId featureColumns = Except.ok fv ∧
        row = clampRow (predict fv)) ∧
      ∀ v ∈ row, 0 ≤ v := by
  simp only [generate_single_unit_forecast] at hok
  cases hl : predictionLoop census organizationId featureColumns predict
      (timestampsOf start duration) with
  | error e => rw [hl] at hok; cases hok
  | ok rows' =>
    rw [hl] at hok
    dsimp only at hok
    by_cases hall : rows'.all (fun r => r.2.length = categories.length) = true
    · rw [if_pos hall] at hok
      have hres := (Except.ok.inj hok).symm
      subst hres
      intro ts row hm
      obtain ⟨fv, hfv, hrow⟩ :=
        predictionLoop_mem census organizationId featureColumns predict _ _
          hl ts row hm
      refine ⟨⟨fv, hfv, hrow⟩, ?_⟩
      intro v hv
      rw [hrow] at hv
      obtain ⟨x, _, hx⟩ := List.mem_map.mp hv
      rw [← hx]
      exact le_max_left 0 x
    · rw [if_neg hall] at hok
      cases hok

theorem generate_clamps_nonneg_applied :
    (∃ fv, build 0 0 0 ["rooms_with_patients"] = Except.ok fv ∧
        [(0 : ℚ), 5, 2, 3, 4] =
          clampRow ((fun _ => [(-1 : ℚ), 5, 2, 3, 4]) fv)) ∧
      ∀ v ∈ [(0 : ℚ), 5, 2, 3, 4], 0 ≤ v :=
  generate_clamps_nonneg 0 1 0 0 ["rooms_with_patients"]
    (fun _ => [(-1 : ℚ), 5, 2, 3, 4])
    (categories, [((0 : Nat), [(0 : ℚ), 5, 2, 3, 4])]) (by decide)
    0 [(0 : ℚ), 5, 2, 3, 4] (by decide)

/-- C10: whenever `generate_single_unit_forecast` succeeds, its result
table has exactly the five category columns Clinical, Mobility, Basic
Need, Housekeeping, Other, in that fixed order — the list is hard-coded,
independent of the predictor — and every row carries exactly five
values. -/
theorem generate_fixed_categories (start duration : Nat)
    (census organizationId : Int) (featureColumns : List String)
    (predict : List (String × Int) → List ℚ)
    (result : List String × List (Nat × List ℚ))
    (hok : generate_single_unit_forecast start duration census organizationId
      featureColumns predict = Except.ok result) :
    result.1 = ["Clinical", "Mobility", "Basic Need", "Housekeeping",
      "Other"] ∧
    ∀ r ∈ result.2, r.2.length = 5 := by
  simp only [generate_single_unit_forecast] at hok
  cases hl : predictionLoop census organizationId featureColumns predict
      (timestampsOf start duration) with
  | error e => rw [hl] at hok; cases hok
  | ok rows' =>
    rw [hl] at hok
    dsimp only at hok
    by_cases hall : rows'.all (fun r => r.2.length = categories.length) = true
    · rw [if_pos hall] at hok
      have hres := (Except.ok.inj hok).symm
      subst hres
      refine ⟨rfl, ?_⟩
      intro r hr
      have := List.all_eq_true.mp hall r hr
      simpa [categories] using this
    · rw [if_neg hall] at hok
      cases hok

theorem generate_fixed_categories_applied :
    ((categories, [((7 : Nat), [(1 : ℚ), 2, 3, 4, 5])]) :
        List String × List (Nat × List ℚ)).1 =
      ["Clinical", "Mobility", "Basic Need", "Housekeeping", "Other"] ∧
    ∀ r ∈ ((categories, [((7 : Nat), [(1 : ℚ), 2, 3, 4, 5])]) :
        List String × List (Nat × List ℚ)).2, r.2.length = 5 :=
  generate_fixed_categories 7 1 3 0 ["rooms_with_patients"]
    (fun _ => [(1 : ℚ), 2, 3, 4, 5])
    (categories, [((7 : Nat), [(1 : ℚ), 2, 3, 4, 5])]) (by decide)

/-! ## Claim theorems about the forecast request loop -/

/-- C6 counterexample: a request whose census map holds a unit with no
unit-to-organization mapping does NOT fail — the loop silently skips the
unit and returns a result without it (and no `InputError` exists in the
code). -/
theorem forecast_unresolved_cx :
    forecastRequestLoop 0 1 (fun _ => none) ["rooms_with_patients"]
      (fun _ => [1, 1, 1, 1, 1]) [("Ghost Unit", 5)] = Except.ok [] := rfl

/-- C6 amended: a unit of the census map with no resolvable
unit-to-organization mapping is silently skipped: no error is raised, no
predictor invocation happens for it, and the request result is exactly the
result for the remaining units (the unit is omitted from the result). -/
theorem forecast_skips_unresolved (start duration : Nat)
    (unitToOrgId : String → Option Int) (featureColumns : List String)
    (predict : List (String × Int) → List ℚ) (unitName : String)
    (censusVal : Int) (rest : List (String × Int))
    (h : unitToOrgId unitName = none) :
    forecastRequestLoop start duration unitToOrgId featureColumns predict
        ((unitName, censusVal) :: rest) =
      forecastRequestLoop start duration unitToOrgId featureColumns predict
        rest := by
  simp only [forecastRequestLoop]
  rw [h]

theorem forecast_skips_unresolved_applied :
    forecastRequestLoop 0 1 (fun _ => none) ["rooms_with_patients"]
        (fun _ => [1, 1, 1, 1, 1]) [("Ghost Unit", 5)] =
      forecastRequestLoop 0 1 (fun _ => none) ["rooms_with_patients"]
        (fun _ => [1, 1, 1, 1, 1]) [] :=
  forecast_skips_unresolved 0 1 (fun _ => none) ["rooms_with_patients"]
    (fun _ => [1, 1, 1, 1, 1]) "Ghost Unit" 5 [] rfl

/-! ## Claim theorems about the aggregator's peak-hour computation -/

theorem bestRow_cons_isSome (x : Nat × List ℚ) (xs : List (Nat × List ℚ)) :
    ∃ b, bestRow (x :: xs) = some b := by
  simp only [bestRow]
  cases bestRow xs with
  | none => exact ⟨x, rfl⟩
  | some b =>
    by_cases h : rowTotal x < rowTotal b
    · exact ⟨b, by dsimp only; rw [if_pos h]⟩
    · exact ⟨x, by dsimp only; rw [if_neg h]⟩

theorem bestRow_spec (rows : List (Nat × List ℚ)) (hne : rows ≠ [])
    (hsorted : rows.Pairwise (fun a b => a.1 < b.1)) :
    ∃ b, bestRow rows = some b ∧ b ∈ rows ∧
      (∀ r' ∈ rows, rowTotal r' ≤ rowTotal b) ∧
      (∀ r' ∈ rows, rowTotal r' = rowTotal b → b.1 ≤ r'.1) := by
  induction rows with
  | nil => exact absurd rfl hne
  | cons r rest ih =>
    obtain ⟨hhead, htail⟩ := List.pairwise_cons.mp hsorted
    cases hrest : bestRow rest with
    | none =>
      cases rest with
      | nil =>
        refine ⟨r, ?_, List.mem_cons_self _ _, ?_, ?_⟩
        · simp [bestRow]
        · intro r' hr'
          rcases List.mem_cons.mp hr' with h1 | h1
          · exact le_of_eq (by rw [h1])
          · cases h1
        · intro r' hr' _
          rcases List.mem_cons.mp hr' with h1 | h1
          · exact le_of_eq (by rw [h1])
          · cases h1
      | cons x xs =>
        exfalso
        obtain ⟨b, hb⟩ := bestRow_cons_isSome x xs
        rw [hrest] at hb
        cases hb
    | some b' =>
      have hrne : rest ≠ [] := by
        intro hr
        rw [hr] at hrest
        cases hrest
      obtain ⟨b'', hb1, hb2, hb3, hb4⟩ := ih hrne htail
      rw [hrest] at hb1
      have hbb : b' = b'' := Option.some.inj hb1
      subst hbb
      have hstep : bestRow (r :: rest) =
          if rowTotal r < rowTotal b' then some b' else some r := by
        simp only [bestRow]
        rw [hrest]
      by_cases hlt : rowTotal r < rowTotal b'
      · refine ⟨b', ?_, List.mem_cons_of_mem _ hb2, ?_, ?_⟩
        · rw [hstep, if_pos hlt]
        · intro r' hr'
          rcases List.mem_cons.mp hr' with h1 | h1
          · rw [h1]; exact le_of_lt hlt
          · exact hb3 r' h1
        · intro r' hr' heq
          rcases List.mem_cons.mp hr' with h1 | h1
          · rw [h1] at heq
            rw [heq] at hlt
            exact absurd hlt (lt_irrefl _)
          · exact hb4 r' h1 heq
      · refine ⟨r, ?_, List.mem_cons_self _ _, ?_, ?_⟩
        · rw [hstep, if_neg hlt]
        · intro r' hr'
          rcases List.mem_cons.mp hr' with h1 | h1
          · exact le_of_eq (by rw [h1])
          · exact le_trans (hb3 r' h1) (le_of_not_lt hlt)
        · intro r' hr' _
          rcases List.mem_cons.mp hr' with h1 | h1
          · exact le_of_eq (by rw [h1])
          · exact le_of_lt (hhead r' h1)

/-- C9: for every non-empty aggregated forecast table (rows indexed by
strictly increasing timestamps, as `groupby` produces), the reported peak
hour is the hour whose across-category sum is maximal, and when several
hours attain that maximum the earliest such hour is reported. -/
theorem peak_hour_max_earliest (rows : List (Nat × List ℚ))
    (hne : rows ≠ [])
    (hsorted : rows.Pairwise (fun a b => a.1 < b.1)) :
    ∃ b ∈ rows, peakHour rows = some b.1 ∧
      (∀ r' ∈ rows, rowTotal r' ≤ rowTotal b) ∧
      (∀ r' ∈ rows, rowTotal r' = rowTotal b → b.1 ≤ r'.1) := by
  obtain ⟨b, h1, h2, h3, h4⟩ := bestRow_spec rows hne hsorted
  exact ⟨b, h2, by simp [peakHour, h1], h3, h4⟩

theorem peak_hour_max_earliest_applied :
    ∃ b ∈ [((8 : Nat), [(1 : ℚ), 2]), ((9 : Nat), [(3 : ℚ), 0])],
      peakHour [((8 : Nat), [(1 : ℚ), 2]), ((9 : Nat), [(3 : ℚ), 0])] =
          some b.1 ∧
      (∀ r' ∈ [((8 : Nat), [(1 : ℚ), 2]), ((9 : Nat), [(3 : ℚ), 0])],
        rowTotal r' ≤ rowTotal b) ∧
      (∀ r' ∈ [((8 : Nat), [(1 : ℚ), 2]), ((9 : Nat), [(3 : ℚ), 0])],
        rowTotal r' = rowTotal b → b.1 ≤ r'.1) :=
  peak_hour_max_earliest [((8 : Nat), [(1 : ℚ), 2]), ((9 : Nat), [(3 : ℚ), 0])]
    (by simp) (by simp)

end Dispatch
